import Mathlib

/-!
Shallow embedding of the qq.py client library (src/qq/client.py and
src/qq/state.py): the one-shot waiter dispatch machinery, the connect
reconnect state machine, close, client construction, the connection-state
constructor, and the member-chunk request coordinator.
-/

namespace QQClient

/-! String constants used by the embedded code. -/

def onStr : String := "on_"

def noneStr : String := "None"

def dotStr : String := "."

def eventTypeErrMsg : String := "注册的事件必须是协程函数"

def grtErrMsg : String := "guild_ready_timeout cannot be negative"

/-! ### Association-list model of a Python dict / dynamic attribute table.

Python dicts have unique keys; `setKey` replaces the (unique) entry when the
key is present and appends otherwise, `popKey` removes the (unique) entry,
`lookupKey` finds the entry. -/

def lookupKey {α : Type} : List (String × α) → String → Option α
  | [], _ => none
  | (k1, v) :: rest, k => if k1 = k then some v else lookupKey rest k

def setKey {α : Type} : List (String × α) → String → α → List (String × α)
  | [], k, v => [(k, v)]
  | (k1, v1) :: rest, k, v => if k1 = k then (k, v) :: rest else (k1, v1) :: setKey rest k v

def popKey {α : Type} : List (String × α) → String → List (String × α)
  | [], _ => []
  | (k1, v1) :: rest, k => if k1 = k then rest else (k1, v1) :: popKey rest k

/-! ### One-shot waiter dispatch (Client.dispatch, client.py lines 186-224).

A waiter is a pair (future, condition) stored in `Client._listeners[event]`.
The future's pre-dispatch state is summarised by its `cancelled` bit; the
condition is a Python callable that either raises (modelled `Except.error`)
or returns a truth value. `FutureVal` is the value a resolved future ends
up holding: `set_result(None)` for zero positional arguments,
`set_result(args[0])` for exactly one, `set_result(args)` (the whole tuple)
otherwise, and `set_exception(exc)` when the condition raised. -/

inductive FutureVal (V E : Type) where
  | empty
  | single (v : V)
  | tupleAll (vs : List V)
  | failure (e : E)
deriving DecidableEq

structure Waiter (V E : Type) where
  cancelled : Bool
  condition : List V → Except E Bool

/-- Arity shaping of `future.set_result` in `Client.dispatch`:
`len(args) == 0` gives `None`, `len(args) == 1` gives `args[0]`,
otherwise the full tuple `args`. -/
def shapeResult {V E : Type} : List V → FutureVal V E
  | [] => .empty
  | [a] => .single a
  | args => .tupleAll args

/-- The fate of a single waiter during one dispatch scan: still registered
(`kept`), removed because the future was already cancelled, or removed with
its future resolved to a `FutureVal`. -/
inductive Fate (V E : Type) where
  | kept
  | removedCancelled
  | resolved (v : FutureVal V E)
deriving DecidableEq

/-- One step of the scan loop in `Client.dispatch`: a cancelled future is
marked removed; a condition that raises resolves the future with the raised
failure; a condition returning true resolves it with the arity-shaped
result; a condition returning false leaves the waiter registered. -/
def waiterFate {V E : Type} (args : List V) (w : Waiter V E) : Fate V E :=
  if w.cancelled then .removedCancelled
  else
    match w.condition args with
    | .error exc => .resolved (.failure exc)
    | .ok result => if result then .resolved (shapeResult args) else .kept

def isKept {V E : Type} (args : List V) (w : Waiter V E) : Bool :=
  match waiterFate args w with
  | .kept => true
  | _ => false

/-- The dispatch-relevant part of a `Client`: the one-shot waiter registry
`_listeners` and the dynamic attribute table consulted by
`getattr(self, 'on_' + event)` (handlers registered via `Client.event` live
there under the function's own declared name). `H` is the type of handler
callables. -/
structure DispatchClient (V E H : Type) where
  listeners : List (String × List (Waiter V E))
  attrs : List (String × H)

structure DispatchOutcome (V E H : Type) where
  client : DispatchClient V E H
  fates : List (Fate V E)
  scheduled : Option H

/-- `Client.dispatch(event, *args)`. The waiters registered under `event`
are scanned in order, each receiving its `waiterFate`; the non-kept ones
are removed afterwards (`del listeners[idx]` over the collected indices in
reverse), and when every waiter was removed the whole per-event entry is
popped from the registry (`len(removed) == len(listeners)` in the source
is equivalent to the survivor list being empty). An absent or empty
listener list is skipped (`if listeners:`). Finally the handler attribute
named `'on_' + event` is looked up and, when present, scheduled
(an `AttributeError` is passed over, modelled by `none`). -/
def dispatch {V E H : Type} (c : DispatchClient V E H) (event : String) (args : List V) :
    DispatchOutcome V E H :=
  let method := onStr ++ event
  let scanned : List (String × List (Waiter V E)) × List (Fate V E) :=
    match lookupKey c.listeners event with
    | none => (c.listeners, [])
    | some ls =>
      if ls.isEmpty then (c.listeners, [])
      else
        let fates := ls.map (waiterFate args)
        let survivors := ls.filter (isKept args)
        if survivors.isEmpty then (popKey c.listeners event, fates)
        else (setKey c.listeners event survivors, fates)
  { client := { listeners := scanned.1, attrs := c.attrs },
    fates := scanned.2,
    scheduled := lookupKey c.attrs method }

/-- `Client.event(coro)` (client.py lines 480-486): reject a non-coroutine
callable with a `TypeError`, otherwise `setattr(self, coro.__name__, coro)`
— the handler is bound under the function's own declared name, with no
validation of that name. -/
def eventRegister {V E H : Type} (c : DispatchClient V E H) (name : String)
    (isCoroutineFn : Bool) (h : H) : Except String (DispatchClient V E H) :=
  if ¬ isCoroutineFn then .error eventTypeErrMsg
  else .ok { c with attrs := setKey c.attrs name h }

/-- Whether a string starts with the three characters `on_` (the naming
convention `dispatch` relies on when looking up a handler attribute). -/
def hasOnPrefix (s : String) : Bool :=
  match s.data with
  | 'o' :: 'n' :: '_' :: _ => true
  | _ => false

/-! ### ChunkRequest (state.py lines 13-58).

A `Member` carries its id and optional join timestamp (the only fields
`add_members` inspects). A guild's member cache is modelled as the list of
cached members; `get_member` looks one up by id. Futures held by waiters
are modelled as `Option (List Member)`: `none` is a pending future, `some`
a done one holding its result. -/

structure Member where
  id : Nat
  joined_at : Option Nat
deriving DecidableEq

/-- `Guild.get_member(id)`: cache lookup by member id. Modelled from the
spec: the guild entity code is not under src/, only its use by
`ChunkRequest.add_members`; per §3 the member cache is keyed by id. -/
def getMember (g : List Member) (i : Nat) : Option Member :=
  g.find? (fun m => m.id = i)

/-- `Guild._add_member(member)`. Modelled from the spec: the guild entity
code is not under src/; per §3 members are "merged in one at a time by a
ChunkRequest", the cache holding at most one entry per id, so adding stores
the member under its id, replacing any previous entry. -/
def addMemberRaw (g : List Member) (m : Member) : List Member :=
  if (g.find? (fun x => x.id = m.id)).isSome
  then g.map (fun x => if x.id = m.id then m else x)
  else g ++ [m]

/-- Guild table of the state manager: guild id to member cache. The
`resolver` passed to `ChunkRequest` is a lookup into this table. -/
def GuildTable : Type := List (Nat × List Member)

def resolveGuild (gt : GuildTable) (gid : Nat) : Option (List Member) :=
  match gt with
  | [] => none
  | (k, g) :: rest => if k = gid then some g else resolveGuild rest gid

def setGuild (gt : GuildTable) (gid : Nat) (g : List Member) : GuildTable :=
  match gt with
  | [] => [(gid, g)]
  | (k, g1) :: rest => if k = gid then (gid, g) :: rest else (k, g1) :: setGuild rest gid g

structure ChunkRequest where
  guild_id : Nat
  cache : Bool
  buffer : List Member
  waiters : List (Option (List Member))

/-- `ChunkRequest.add_members(members)`: extend the accumulating buffer,
then — when caching is enabled and the resolver finds the guild — merge
each member into the guild's cache, but only when it is not already cached
or is cached without a join timestamp. -/
def ChunkRequest.add_members (c : ChunkRequest) (gt : GuildTable) (members : List Member) :
    ChunkRequest × GuildTable :=
  let c1 := { c with buffer := c.buffer ++ members }
  if c.cache then
    match resolveGuild gt c.guild_id with
    | none => (c1, gt)
    | some g =>
      let g1 := members.foldl
        (fun acc m =>
          match getMember acc m.id with
          | none => addMemberRaw acc m
          | some existing =>
            if existing.joined_at = none then addMemberRaw acc m else acc) g
      (c1, setGuild gt c.guild_id g1)
  else (c1, gt)

/-- `ChunkRequest.get_future()`: create a fresh (pending) future and append
it to the waiter list. -/
def ChunkRequest.get_future (c : ChunkRequest) : ChunkRequest :=
  { c with waiters := c.waiters ++ [none] }

/-- `ChunkRequest.done()`: resolve every not-yet-done waiter future with
the accumulated buffer. -/
def ChunkRequest.done (c : ChunkRequest) : ChunkRequest :=
  { c with waiters := c.waiters.map (fun f => match f with
      | none => some c.buffer
      | some r => some r) }

/-- The operations that can hit a `ChunkRequest` between its creation and
the completion signal: a chunk frame arriving (`add_members`) or a caller
registering (`get_future`). -/
inductive ChunkOp where
  | addMembers (ms : List Member)
  | register

def runChunkOps : ChunkRequest × GuildTable → List ChunkOp → ChunkRequest × GuildTable
  | st, [] => st
  | (c, gt), .addMembers ms :: rest => runChunkOps (c.add_members gt ms) rest
  | (c, gt), .register :: rest => runChunkOps (c.get_future, gt) rest

/-! ### Client lifecycle: close (client.py lines 465-478) and the connect
reconnect machine (client.py lines 391-463).

`ConnState` is the lifecycle-relevant state of a `Client`: the `_closed`
flag, whether a live websocket is attached (`self.ws is not None and
self.ws.open`), how many times the gateway socket close and the REST
transport close have been invoked, the `_ready` event, and how many
`disconnect` events were dispatched. -/

structure ConnState where
  closed : Bool
  wsActive : Bool
  wsCloseCalls : Nat
  httpCloseCalls : Nat
  ready : Bool
  disconnectEvents : Nat
deriving DecidableEq

/-- The state a freshly constructed `Client` is in: `_closed = False`,
`ws = None`, `_ready` cleared, no close calls issued yet. -/
def initialConnState : ConnState :=
  { closed := false, wsActive := false, wsCloseCalls := 0,
    httpCloseCalls := 0, ready := false, disconnectEvents := 0 }

/-- `Client.close()`: return immediately when already closed; otherwise
mark closed, close the gateway socket (code 1000) when one is attached,
close the REST transport, and clear the readiness event. -/
def closeClient (s : ConnState) : ConnState :=
  if s.closed then s
  else
    let s1 := { s with closed := true }
    let s2 :=
      if s1.wsActive then { s1 with wsCloseCalls := s1.wsCloseCalls + 1 }
      else s1
    { s2 with httpCloseCalls := s2.httpCloseCalls + 1, ready := false }

/-- The exception classes caught by the `except` clause of the poll loop in
`Client.connect` (client.py lines 425-430). -/
inductive PollExc where
  | osError (errno : Int)
  | httpException
  | gatewayNotFound
  | connectionClosed (code : Int)
  | clientError
  | timeoutError
deriving DecidableEq

/-- What terminates one pass of the inner poll loop: a
`ReconnectWebSocket` control signal, or one of the caught exceptions. -/
inductive PollOutcome where
  | reconnectSignal (resume : Bool)
  | exc (e : PollExc)

/-- How a run of `connect` ends: a normal return, a re-raised exception, or
the supplied script of poll outcomes ran out while the loop was still
polling. -/
inductive ConnectResult where
  | returned
  | raised (e : PollExc)
  | stillPolling
deriving DecidableEq

/-- `isinstance(exc, OSError) and exc.errno in (54, 10054)`. -/
def isPeerReset : PollExc → Bool
  | .osError errno => errno = 54 ∨ errno = 10054
  | _ => false

/-- `isinstance(exc, ConnectionClosed) and exc.code == 1000`. -/
def isCleanClose : PollExc → Bool
  | .connectionClosed code => code = 1000
  | _ => false

/-- `isinstance(exc, ConnectionClosed)` with `exc.code != 1000`. -/
def isAbnormalClose : PollExc → Bool
  | .connectionClosed code => code ≠ 1000
  | _ => false

/-- `self.dispatch('disconnect')` as seen by the lifecycle state. -/
def dispatchDisconnect (s : ConnState) : ConnState :=
  { s with disconnectEvents := s.disconnectEvents + 1 }

/-- `Client.connect(reconnect=...)`, driven by a script listing what ends
each pass of the poll loop. Returns the final lifecycle state, how the call
ended, and how many times the backoff-and-resume retry path
(`backoff.delay()` followed by `asyncio.sleep`) was taken. Mirrors the
handler order of client.py lines 413-463: loop guard `not is_closed()`; a
`ReconnectWebSocket` dispatches `disconnect` and re-enters with a resume;
a caught exception dispatches `disconnect`, then — when reconnect was
disabled — closes and either returns (clean close code 1000) or re-raises;
otherwise returns when already closed, retries immediately on a peer-reset
errno, closes and re-raises on an abnormal closure with a non-1000 code,
and otherwise sleeps a backoff delay and retries with a resume. -/
def connect (reconnect : Bool) : List PollOutcome → ConnState → ConnState × ConnectResult × Nat
  | [], s => if s.closed then (s, .returned, 0) else (s, .stillPolling, 0)
  | o :: rest, s =>
    if s.closed then (s, .returned, 0)
    else
      match o with
      | .reconnectSignal _ => connect reconnect rest (dispatchDisconnect s)
      | .exc e =>
        let s1 := dispatchDisconnect s
        if reconnect = false then
          let s2 := closeClient s1
          if isCleanClose e then (s2, .returned, 0) else (s2, .raised e, 0)
        else if s1.closed then (s1, .returned, 0)
        else if isPeerReset e then connect reconnect rest s1
        else if isAbnormalClose e then (closeClient s1, .raised e, 0)
        else
          let r := connect reconnect rest s1
          (r.1, r.2.1, r.2.2 + 1)

/-! ### Client construction (client.py lines 104-136). -/

structure ClientOptions where
  app_id : Option Int
  token : Option String
  shard_id : Option Int
  shard_count : Option Int

/-- Python string interpolation of an optional int: `f"{x}"` is the
literal `None` when the value is absent, `str(x)` otherwise. -/
def pyShowOptInt : Option Int → String
  | none => noneStr
  | some i => toString i

/-- Python string interpolation of an optional string. -/
def pyShowOptStr : Option String → String
  | none => noneStr
  | some s => s

structure ClientInit where
  token : String
  shard_id : Option Int
  shard_count : Option Int
  closed : Bool
  ready : Bool

/-- The construction-time fields of `Client.__init__` the claims are about:
`self.token = f"{options.pop('app_id', None)}.{options.pop('token', None)}"`,
the shard fields, `_closed = False` and the cleared `_ready` event. -/
def clientInit (o : ClientOptions) : ClientInit :=
  { token := pyShowOptInt o.app_id ++ dotStr ++ pyShowOptStr o.token,
    shard_id := o.shard_id,
    shard_count := o.shard_count,
    closed := false,
    ready := false }

/-- The spec's description of the credential composition (§3, §6): the two
parts joined by a dot, the literal string `None` substituting for a part
that was not supplied. Stated over the already-stringified parts. -/
def specTokenTwoPart (appPart tokenPart : Option String) : String :=
  appPart.getD noneStr ++ dotStr ++ tokenPart.getD noneStr

/-! ### ConnectionState construction (state.py lines 70-104).

`max_messages` is looked up with default 1000 (an explicitly supplied
`None` survives the lookup), then a supplied non-positive value is reset to
1000. `heartbeat_timeout` defaults to 60.0 and `guild_ready_timeout` to
2.0; a negative `guild_ready_timeout` raises a `ValueError`. Option values
are `Option`-wrapped to distinguish "key absent" from "key present";
`max_messages` is doubly wrapped because Python also admits an explicit
`None` value for it. -/

structure StateOptions where
  max_messages : Option (Option Int)
  application_id : Option Int
  heartbeat_timeout : Option Rat
  guild_ready_timeout : Option Rat

structure ConnectionState where
  max_messages : Option Int
  shard_count : Option Int
  application_id : Option Int
  heartbeat_timeout : Rat
  guild_ready_timeout : Rat
deriving DecidableEq

def connectionStateInit (o : StateOptions) : Except String ConnectionState :=
  let mm0 : Option Int :=
    match o.max_messages with
    | none => some 1000
    | some v => v
  let mm : Option Int :=
    match mm0 with
    | some v => if v ≤ 0 then some 1000 else some v
    | none => none
  let hb : Rat := o.heartbeat_timeout.getD 60
  let grt : Rat := o.guild_ready_timeout.getD 2
  if grt < 0 then .error grtErrMsg
  else .ok { max_messages := mm, shard_count := none,
             application_id := o.application_id,
             heartbeat_timeout := hb, guild_ready_timeout := grt }

/-- The value `max_messages` ends up with, per the two source lines
`options.get('max_messages', 1000)` and the non-positive reset. Stated as a
standalone function only for the characterization lemma below. -/
def normMaxMessages : Option (Option Int) → Option Int
  | none => some 1000
  | some none => none
  | some (some v) => if v ≤ 0 then some 1000 else some v

/-! ### Concrete fixtures used by the witness theorems. -/

def boomStr : String := "boom"

def msgEventStr : String := "message"

def plainNameStr : String := "handler"

def witWaiterTrue : Waiter Nat String := ⟨false, fun _ => .ok true⟩

def witWaiterKeep : Waiter Nat String := ⟨false, fun _ => .ok false⟩

def witWaiterExc : Waiter Nat String := ⟨false, fun _ => .error boomStr⟩

def arityClient : DispatchClient Nat String Nat := ⟨[(msgEventStr, [witWaiterTrue])], []⟩

def excClient : DispatchClient Nat String Nat :=
  ⟨[(msgEventStr, [witWaiterExc, witWaiterKeep])], []⟩

def regClient : DispatchClient Nat String Nat := ⟨[], [(msgEventStr, 7)]⟩

def memA : Member := ⟨1, none⟩

def memB : Member := ⟨2, some 5⟩

def chunkReqFix : ChunkRequest := ⟨42, true, [memA], []⟩

def chunkOpsFix : List ChunkOp := [.register, .addMembers [memB], .register]

/-! ### Association-list lemmas (the dict invariant: keys are unique). -/

lemma lookupKey_eq_none_of_not_mem {α : Type} (m : List (String × α)) (k : String)
    (h : k ∉ m.map Prod.fst) : lookupKey m k = none := by
  induction m with
  | nil => rfl
  | cons p rest ih =>
    simp only [List.map_cons, List.mem_cons, not_or] at h
    simp only [lookupKey]
    rw [if_neg (fun hk => h.1 hk.symm)]
    exact ih h.2

lemma lookupKey_popKey_self {α : Type} (m : List (String × α)) (k : String)
    (h : (m.map Prod.fst).Nodup) : lookupKey (popKey m k) k = none := by
  induction m with
  | nil => rfl
  | cons p rest ih =>
    simp only [List.map_cons, List.nodup_cons] at h
    by_cases hk : p.1 = k
    · simp only [popKey, if_pos hk]
      exact lookupKey_eq_none_of_not_mem rest k (hk ▸ h.1)
    · simp only [popKey, if_neg hk, lookupKey]
      exact ih h.2

lemma lookupKey_setKey_self {α : Type} (m : List (String × α)) (k : String) (v : α) :
    lookupKey (setKey m k v) k = some v := by
  induction m with
  | nil => simp [setKey, lookupKey]
  | cons p rest ih =>
    by_cases hk : p.1 = k
    · simp [setKey, lookupKey, hk]
    · simp only [setKey, if_neg hk, lookupKey]
      exact ih

lemma lookupKey_setKey_ne {α : Type} (m : List (String × α)) (k1 k : String) (v : α)
    (h : k1 ≠ k) : lookupKey (setKey m k1 v) k = lookupKey m k := by
  induction m with
  | nil => simp [setKey, lookupKey, h]
  | cons p rest ih =>
    by_cases hk : p.1 = k1
    · have hpk : p.1 ≠ k := by rw [hk]; exact h
      simp [setKey, hk, lookupKey, h, hpk]
    · by_cases hpk : p.1 = k
      · have hk2 : ¬ k = k1 := by rw [← hpk]; exact hk
        simp [setKey, hk, lookupKey, hpk, hk2]
      · simp [setKey, hk, lookupKey, hpk, ih]

/-! ### Dispatch unfolding lemma. -/

lemma dispatch_eq_of_lookup {V E H : Type} (c : DispatchClient V E H) (event : String)
    (args : List V) (ls : List (Waiter V E)) (hls : lookupKey c.listeners event = some ls)
    (hne : ls.isEmpty = false) :
    dispatch c event args =
      ⟨⟨ite (ls.filter (isKept args)).isEmpty (popKey c.listeners event)
          (setKey c.listeners event (ls.filter (isKept args))), c.attrs⟩,
        ls.map (waiterFate args), lookupKey c.attrs (onStr ++ event)⟩ := by
  unfold dispatch
  rw [hls]
  by_cases hsv : (ls.filter (isKept args)).isEmpty <;> simp [hne, hsv]

/-! ### Characterization of connectionStateInit. -/

lemma connectionStateInit_ok_iff (mm : Option (Option Int)) (ai : Option Int)
    (hb : Option Rat) (g : Option Rat) (s : ConnectionState) :
    connectionStateInit ⟨mm, ai, hb, g⟩ = .ok s ↔
      ¬ g.getD 2 < 0
      ∧ s = ⟨normMaxMessages mm, none, ai, hb.getD 60, g.getD 2⟩ := by
  simp only [connectionStateInit]
  by_cases hg : g.getD 2 < 0
  · rw [if_pos hg]
    simp [hg]
  · rw [if_neg hg]
    rcases mm with _ | mv
    · simp [normMaxMessages, hg, eq_comm]
    · rcases mv with _ | v
      · simp [normMaxMessages, hg, eq_comm]
      · by_cases hv : v ≤ 0 <;> simp [normMaxMessages, hg, hv, eq_comm]

/-! ### Claim theorems: lifecycle. -/

/-- C6: `Client.close` is idempotent — a second call on an already-closed
client is a no-op, the per-session socket/transport close counters rise by
at most one per call (and not at all after the first), any number of close
calls has the effect of one, and a close performed on a not-yet-closed
client marks it closed and clears the readiness signal. -/
theorem close_idempotent_single_shot (s : ConnState) :
    closeClient (closeClient s) = closeClient s
    ∧ (closeClient s).closed = true
    ∧ (closeClient s).httpCloseCalls ≤ s.httpCloseCalls + 1
    ∧ (closeClient s).wsCloseCalls ≤ s.wsCloseCalls + 1
    ∧ (s.closed = false →
        (closeClient s).ready = false
        ∧ (closeClient s).httpCloseCalls = s.httpCloseCalls + 1)
    ∧ ∀ n : Nat, closeClient^[n + 1] s = closeClient s := by
  have hidem : closeClient (closeClient s) = closeClient s := by
    by_cases h : s.closed <;> by_cases hw : s.wsActive <;> simp [closeClient, h, hw]
  refine ⟨hidem, ?_, ?_, ?_, ?_, ?_⟩
  · by_cases h : s.closed <;> by_cases hw : s.wsActive <;> simp [closeClient, h, hw]
  · by_cases h : s.closed <;> by_cases hw : s.wsActive <;> simp [closeClient, h, hw]
  · by_cases h : s.closed <;> by_cases hw : s.wsActive <;> simp [closeClient, h, hw]
  · intro h
    by_cases hw : s.wsActive <;> simp [closeClient, h, hw]
  · intro n
    induction n with
    | zero => rfl
    | succ n ih =>
      rw [Function.iterate_succ_apply', ih, hidem]

/-- C6 witness: on a fresh live session (open gateway socket, not closed),
close closes once, a second close changes nothing, and readiness is
cleared. -/
theorem close_idempotent_single_shot_witness :
    ({ initialConnState with wsActive := true } : ConnState).closed = false
    ∧ ((closeClient { initialConnState with wsActive := true }).ready = false
      ∧ (closeClient { initialConnState with wsActive := true }).httpCloseCalls
          = ({ initialConnState with wsActive := true } : ConnState).httpCloseCalls + 1) :=
  ⟨rfl, (close_idempotent_single_shot { initialConnState with wsActive := true }).2.2.2.2.1 rfl⟩

/-- C2: with reconnect disabled, a `ConnectionClosed` with close code 1000
makes `connect` call `close` and return normally; a `ConnectionClosed` with
any other code makes `connect` call `close` (exactly once: the transport
close counter rises by exactly one) and re-raise the failure. Neither path
touches the backoff retry counter, whatever outcomes would have followed. -/
theorem connect_no_reconnect_close_codes (s : ConnState) (hs : s.closed = false)
    (rest : List PollOutcome) (c : Int) (hc : c ≠ 1000) :
    connect false (.exc (.connectionClosed 1000) :: rest) s
      = (closeClient (dispatchDisconnect s), .returned, 0)
    ∧ connect false (.exc (.connectionClosed c) :: rest) s
      = (closeClient (dispatchDisconnect s), .raised (.connectionClosed c), 0)
    ∧ (closeClient (dispatchDisconnect s)).closed = true
    ∧ (closeClient (dispatchDisconnect s)).httpCloseCalls = s.httpCloseCalls + 1 := by
  refine ⟨?_, ?_, ?_, ?_⟩
  · simp [connect, hs, isCleanClose]
  · simp [connect, hs, isCleanClose, hc]
  · by_cases hw : s.wsActive <;> simp [closeClient, dispatchDisconnect, hs, hw]
  · by_cases hw : s.wsActive <;> simp [closeClient, dispatchDisconnect, hs, hw]

/-- C2 witness: concrete run from a fresh client state with close codes
1000 and 4010. -/
theorem connect_no_reconnect_close_codes_witness :
    (initialConnState.closed = false ∧ (4010 : Int) ≠ 1000)
    ∧ (connect false [.exc (.connectionClosed 1000)] initialConnState
        = (closeClient (dispatchDisconnect initialConnState), .returned, 0)
      ∧ connect false [.exc (.connectionClosed 4010)] initialConnState
        = (closeClient (dispatchDisconnect initialConnState),
            .raised (.connectionClosed 4010), 0)
      ∧ (closeClient (dispatchDisconnect initialConnState)).closed = true
      ∧ (closeClient (dispatchDisconnect initialConnState)).httpCloseCalls
          = initialConnState.httpCloseCalls + 1) :=
  ⟨⟨rfl, by decide⟩,
    connect_no_reconnect_close_codes initialConnState rfl [] 4010 (by decide)⟩

/-- C3: even with reconnect enabled, a `ConnectionClosed` with a non-1000
close code is fatal: `connect` calls `close` and re-raises it, takes zero
backoff retries, and ignores whatever outcomes would have followed — the
backoff-and-resume path is never entered for such a failure. -/
theorem connect_abnormal_close_fatal (c : Int) (hc : c ≠ 1000) (s : ConnState)
    (hs : s.closed = false) (rest : List PollOutcome) :
    connect true (.exc (.connectionClosed c) :: rest) s
      = (closeClient (dispatchDisconnect s), .raised (.connectionClosed c), 0) := by
  simp [connect, hs, isCleanClose, isAbnormalClose, isPeerReset, dispatchDisconnect, hc]

/-- C3 witness: close code 4010 with reconnect requested, from a fresh
state, with further outcomes pending that are never reached. -/
theorem connect_abnormal_close_fatal_witness :
    ((4010 : Int) ≠ 1000 ∧ initialConnState.closed = false)
    ∧ connect true [.exc (.connectionClosed 4010), .reconnectSignal true] initialConnState
        = (closeClient (dispatchDisconnect initialConnState),
            .raised (.connectionClosed 4010), 0) :=
  ⟨⟨by decide, rfl⟩,
    connect_abnormal_close_fatal 4010 (by decide) initialConnState rfl [.reconnectSignal true]⟩

/-- C7: after construction the client's token field is the two-part string
described by the spec — the stringified `app_id` and the token joined by a
dot, the literal `None` standing in for an omitted part — for every
combination of supplied and omitted parts. -/
theorem client_token_two_part (o : ClientOptions) :
    (clientInit o).token = specTokenTwoPart (o.app_id.map toString) o.token
    ∧ (∀ a : Int, ∀ t : String,
        (clientInit { o with app_id := some a, token := some t }).token
          = toString a ++ dotStr ++ t)
    ∧ (∀ t : String,
        (clientInit { o with app_id := none, token := some t }).token
          = noneStr ++ dotStr ++ t)
    ∧ (∀ a : Int,
        (clientInit { o with app_id := some a, token := none }).token
          = toString a ++ dotStr ++ noneStr)
    ∧ (clientInit { o with app_id := none, token := none }).token
        = noneStr ++ dotStr ++ noneStr := by
  refine ⟨?_, fun a t => rfl, fun t => rfl, fun a => rfl, rfl⟩
  obtain ⟨a, t, si, sc⟩ := o
  cases a <;> cases t <;> rfl

/-- C8: a negative `guild_ready_timeout` makes `ConnectionState`
construction fail with the invalid-configuration error; a non-negative or
absent value (default 2.0) lets construction succeed with a non-negative
`guild_ready_timeout`. -/
theorem guild_ready_timeout_validated :
    (∀ (o : StateOptions) (g : Rat), o.guild_ready_timeout = some g → g < 0 →
        connectionStateInit o = .error grtErrMsg)
    ∧ (∀ o : StateOptions,
        (o.guild_ready_timeout = none ∨ ∃ g, o.guild_ready_timeout = some g ∧ 0 ≤ g) →
        ∃ s, connectionStateInit o = .ok s ∧ 0 ≤ s.guild_ready_timeout) := by
  constructor
  · intro o g hg hneg
    simp only [connectionStateInit]
    rw [hg]
    simp only [Option.getD_some]
    rw [if_pos hneg]
  · intro o hg
    obtain ⟨mm, ai, hb, g⟩ := o
    have hnn : ¬ g.getD 2 < 0 := by
      rcases hg with h | ⟨g1, hg1, hge⟩
      · simp only at h
        rw [h]
        norm_num
      · simp only at hg1
        rw [hg1]
        simpa using not_lt.mpr hge
    refine ⟨⟨normMaxMessages mm, none, ai, hb.getD 60, g.getD 2⟩, ?_, ?_⟩
    · exact (connectionStateInit_ok_iff mm ai hb g _).mpr ⟨hnn, rfl⟩
    · exact not_lt.mp hnn

/-- C8 witness: `guild_ready_timeout = -1` fails with the error; omitting
the option succeeds with the non-negative default. -/
theorem guild_ready_timeout_validated_witness :
    ((⟨none, none, none, some (-1)⟩ : StateOptions).guild_ready_timeout = some (-1)
      ∧ (-1 : Rat) < 0
      ∧ (⟨none, none, none, none⟩ : StateOptions).guild_ready_timeout = none)
    ∧ connectionStateInit ⟨none, none, none, some (-1)⟩ = .error grtErrMsg
    ∧ ∃ s, connectionStateInit ⟨none, none, none, none⟩ = .ok s
        ∧ 0 ≤ s.guild_ready_timeout :=
  ⟨⟨rfl, by norm_num, rfl⟩,
    guild_ready_timeout_validated.1 ⟨none, none, none, some (-1)⟩ (-1) rfl (by norm_num),
    guild_ready_timeout_validated.2 ⟨none, none, none, none⟩ (Or.inl rfl)⟩

/-- C9: a supplied non-positive `max_messages` is normalized to the default
1000, an absent option yields 1000, and on every successful construction an
integer `max_messages` is positive. -/
theorem max_messages_normalized :
    (∀ (o : StateOptions) (v : Int), o.max_messages = some (some v) → v ≤ 0 →
        ∀ s, connectionStateInit o = .ok s → s.max_messages = some 1000)
    ∧ (∀ o : StateOptions, o.max_messages = none →
        ∀ s, connectionStateInit o = .ok s → s.max_messages = some 1000)
    ∧ (∀ (o : StateOptions) (s : ConnectionState) (k : Int),
        connectionStateInit o = .ok s → s.max_messages = some k → 0 < k) := by
  refine ⟨?_, ?_, ?_⟩
  · intro o v hv hnp s hs
    obtain ⟨mm, ai, hb, g⟩ := o
    simp only at hv
    subst hv
    obtain ⟨-, hs⟩ := (connectionStateInit_ok_iff _ ai hb g s).mp hs
    subst hs
    simp [normMaxMessages, hnp]
  · intro o hmm s hs
    obtain ⟨mm, ai, hb, g⟩ := o
    simp only at hmm
    subst hmm
    obtain ⟨-, hs⟩ := (connectionStateInit_ok_iff _ ai hb g s).mp hs
    subst hs
    simp [normMaxMessages]
  · intro o s k hs hk
    obtain ⟨mm, ai, hb, g⟩ := o
    obtain ⟨-, hs⟩ := (connectionStateInit_ok_iff mm ai hb g s).mp hs
    subst hs
    rcases mm with _ | mv
    · simp [normMaxMessages] at hk
      omega
    · rcases mv with _ | v
      · simp [normMaxMessages] at hk
      · by_cases hv : v ≤ 0
        · simp [normMaxMessages, if_pos hv] at hk
          omega
        · simp [normMaxMessages, if_neg hv] at hk
          omega

/-- C9 witness: `max_messages = 0` yields 1000, absent yields 1000, and
the resulting cap is positive. -/
theorem max_messages_normalized_witness :
    ((⟨some (some 0), none, none, none⟩ : StateOptions).max_messages = some (some 0)
      ∧ (0 : Int) ≤ 0
      ∧ connectionStateInit ⟨some (some 0), none, none, none⟩
          = .ok ⟨some 1000, none, none, 60, 2⟩)
    ∧ (∀ s, connectionStateInit ⟨some (some 0), none, none, none⟩ = .ok s →
        s.max_messages = some 1000)
    ∧ (0 : Int) < 1000 :=
  ⟨⟨rfl, by decide, rfl⟩,
    max_messages_normalized.1 ⟨some (some 0), none, none, none⟩ 0 rfl (by decide),
    max_messages_normalized.2.2 ⟨some (some 0), none, none, none⟩
      ⟨some 1000, none, none, 60, 2⟩ 1000 rfl rfl⟩

/-! ### Claim theorems: dispatch and waiters. -/

lemma hasOnPrefix_onStr_append (e : String) : hasOnPrefix (onStr ++ e) = true := by
  have h : (onStr ++ e).data = 'o' :: 'n' :: '_' :: e.data := by
    simp [onStr, String.data_append]
  simp [hasOnPrefix, h]

/-- C1: during a dispatch, every registered one-shot waiter whose future is
not cancelled and whose predicate returns true is resolved with a result
shaped by the arity of the event's positional arguments — no arguments
gives the empty result, exactly one gives that argument, two or more give
the full ordered argument tuple — and the waiter is removed; when every
waiter of the event was removed, the whole per-event registry entry is
dropped. -/
theorem dispatch_arity_resolution {V E H : Type} (c : DispatchClient V E H)
    (event : String) (args : List V) (ls : List (Waiter V E))
    (hls : lookupKey c.listeners event = some ls)
    (hnd : (c.listeners.map Prod.fst).Nodup)
    (w : Waiter V E) (hw : w ∈ ls) (hcan : w.cancelled = false)
    (hcond : w.condition args = .ok true) :
    (dispatch c event args).fates = ls.map (waiterFate args)
    ∧ waiterFate args w = .resolved (shapeResult args)
    ∧ (args = [] → waiterFate args w = .resolved .empty)
    ∧ (∀ a : V, args = [a] → waiterFate args w = .resolved (.single a))
    ∧ (2 ≤ args.length → waiterFate args w = .resolved (.tupleAll args))
    ∧ w ∉ ls.filter (isKept args)
    ∧ ((∀ x ∈ ls, isKept args x = false) →
        lookupKey (dispatch c event args).client.listeners event = none) := by
  have hne : ls.isEmpty = false := by
    cases ls with
    | nil => cases hw
    | cons a t => rfl
  have hd := dispatch_eq_of_lookup c event args ls hls hne
  have hfate : waiterFate args w = .resolved (shapeResult args) := by
    simp [waiterFate, hcan, hcond]
  have hkf : isKept args w = false := by
    simp [isKept, hfate]
  refine ⟨?_, hfate, ?_, ?_, ?_, ?_, ?_⟩
  · rw [hd]
  · intro h
    subst h
    simpa [shapeResult] using hfate
  · intro a h
    subst h
    simpa [shapeResult] using hfate
  · intro h
    have hsh : shapeResult args = (.tupleAll args : FutureVal V E) := by
      rcases args with _ | ⟨a, _ | ⟨b, t⟩⟩
      · simp at h
      · simp at h
      · rfl
    rw [← hsh]
    exact hfate
  · rw [List.mem_filter]
    rintro ⟨-, hkt⟩
    rw [hkf] at hkt
    cases hkt
  · intro hall
    have hfe : ls.filter (isKept args) = [] := by
      rw [List.filter_eq_nil_iff]
      intro x hx
      simp [hall x hx]
    rw [hd]
    simp only [hfe, List.isEmpty_nil, if_true]
    exact lookupKey_popKey_self c.listeners event hnd

/-- C1 witness: a single matching waiter dispatched with one argument. -/
theorem dispatch_arity_resolution_witness :
    (lookupKey arityClient.listeners msgEventStr = some [witWaiterTrue]
      ∧ (arityClient.listeners.map Prod.fst).Nodup
      ∧ witWaiterTrue ∈ [witWaiterTrue]
      ∧ witWaiterTrue.cancelled = false
      ∧ witWaiterTrue.condition [7] = .ok true)
    ∧ ((dispatch arityClient msgEventStr [7]).fates
          = [witWaiterTrue].map (waiterFate [7])
      ∧ waiterFate [7] witWaiterTrue = .resolved (shapeResult [7])
      ∧ ([7] = ([] : List Nat) → waiterFate [7] witWaiterTrue = .resolved .empty)
      ∧ (∀ a : Nat, [7] = [a] → waiterFate [7] witWaiterTrue = .resolved (.single a))
      ∧ (2 ≤ ([7] : List Nat).length →
          waiterFate [7] witWaiterTrue = .resolved (.tupleAll [7]))
      ∧ witWaiterTrue ∉ [witWaiterTrue].filter (isKept [7])
      ∧ ((∀ x ∈ [witWaiterTrue], isKept [7] x = false) →
          lookupKey (dispatch arityClient msgEventStr [7]).client.listeners msgEventStr
            = none)) :=
  ⟨⟨rfl, by simp [arityClient], by simp, rfl, rfl⟩,
    dispatch_arity_resolution arityClient msgEventStr [7] [witWaiterTrue] rfl
      (by simp [arityClient]) witWaiterTrue (by simp) rfl rfl⟩

/-- C4: a waiter whose predicate raises during a dispatch is resolved with
the raised failure and removed, while every independently registered waiter
of the same event whose scan kept it stays registered under the event and
has its predicate evaluated normally by the next dispatch of that event. -/
theorem dispatch_predicate_exception {V E H : Type} (c : DispatchClient V E H)
    (event : String) (args : List V) (ls : List (Waiter V E))
    (hls : lookupKey c.listeners event = some ls)
    (w : Waiter V E) (hw : w ∈ ls) (hcan : w.cancelled = false) (e : E)
    (he : w.condition args = .error e)
    (w1 : Waiter V E) (hw1 : w1 ∈ ls) (hk : isKept args w1 = true) :
    waiterFate args w = .resolved (.failure e)
    ∧ w ∉ ls.filter (isKept args)
    ∧ lookupKey (dispatch c event args).client.listeners event
        = some (ls.filter (isKept args))
    ∧ w1 ∈ ls.filter (isKept args)
    ∧ ∀ args1 : List V,
        (dispatch (dispatch c event args).client event args1).fates
          = (ls.filter (isKept args)).map (waiterFate args1) := by
  have hne : ls.isEmpty = false := by
    cases ls with
    | nil => cases hw
    | cons a t => rfl
  have hd := dispatch_eq_of_lookup c event args ls hls hne
  have hfate : waiterFate args w = .resolved (.failure e) := by
    simp [waiterFate, hcan, he]
  have hkw : isKept args w = false := by
    simp [isKept, hfate]
  have hmem1 : w1 ∈ ls.filter (isKept args) := List.mem_filter.mpr ⟨hw1, hk⟩
  have hsvne : (ls.filter (isKept args)).isEmpty = false := by
    cases hfil : ls.filter (isKept args) with
    | nil => rw [hfil] at hmem1; cases hmem1
    | cons a t => rfl
  have hlk : lookupKey (dispatch c event args).client.listeners event
      = some (ls.filter (isKept args)) := by
    rw [hd]
    simp only [hsvne, Bool.false_eq_true, if_false]
    exact lookupKey_setKey_self c.listeners event (ls.filter (isKept args))
  refine ⟨hfate, ?_, hlk, hmem1, ?_⟩
  · rw [List.mem_filter]
    rintro ⟨-, hkt⟩
    rw [hkw] at hkt
    cases hkt
  · intro args1
    have hd1 := dispatch_eq_of_lookup (dispatch c event args).client event args1
      (ls.filter (isKept args)) hlk hsvne
    rw [hd1]

/-- C4 witness: one waiter whose predicate raises and one that stays; the
second is still consulted by the next dispatch of the same event. -/
theorem dispatch_predicate_exception_witness :
    (lookupKey excClient.listeners msgEventStr = some [witWaiterExc, witWaiterKeep]
      ∧ witWaiterExc ∈ [witWaiterExc, witWaiterKeep]
      ∧ witWaiterExc.cancelled = false
      ∧ witWaiterExc.condition [3] = .error boomStr
      ∧ witWaiterKeep ∈ [witWaiterExc, witWaiterKeep]
      ∧ isKept [3] witWaiterKeep = true)
    ∧ (waiterFate [3] witWaiterExc = .resolved (.failure boomStr)
      ∧ witWaiterExc ∉ [witWaiterExc, witWaiterKeep].filter (isKept [3])
      ∧ lookupKey (dispatch excClient msgEventStr [3]).client.listeners msgEventStr
          = some ([witWaiterExc, witWaiterKeep].filter (isKept [3]))
      ∧ witWaiterKeep ∈ [witWaiterExc, witWaiterKeep].filter (isKept [3])
      ∧ ∀ args1 : List Nat,
          (dispatch (dispatch excClient msgEventStr [3]).client msgEventStr args1).fates
            = ([witWaiterExc, witWaiterKeep].filter (isKept [3])).map (waiterFate args1)) :=
  ⟨⟨rfl, by simp, rfl, rfl, by simp, rfl⟩,
    dispatch_predicate_exception excClient msgEventStr [3] [witWaiterExc, witWaiterKeep]
      rfl witWaiterExc (by simp) rfl boomStr rfl witWaiterKeep (by simp) rfl⟩

/-- C10: `Client.event` accepts a coroutine function under any declared
name — registration succeeds and binds the handler under that very name —
while `dispatch` only ever looks up the attribute named exactly
`'on_' + event`; hence a handler registered under a name that does not
start with `on_` changes no dispatch lookup and is never scheduled by any
dispatch. -/
theorem event_registration_no_name_validation {V E H : Type}
    (c : DispatchClient V E H) (name : String) (hname : hasOnPrefix name = false)
    (hfn : H) :
    (∀ name2 : String,
        eventRegister c name2 true hfn = .ok ⟨c.listeners, setKey c.attrs name2 hfn⟩
        ∧ lookupKey (setKey c.attrs name2 hfn) name2 = some hfn)
    ∧ (∀ (event : String) (args : List V),
        (dispatch c event args).scheduled = lookupKey c.attrs (onStr ++ event))
    ∧ (∀ (event : String) (args : List V),
        (dispatch (⟨c.listeners, setKey c.attrs name hfn⟩ : DispatchClient V E H)
            event args).scheduled
          = (dispatch c event args).scheduled) := by
  refine ⟨fun name2 =>
      ⟨by simp [eventRegister], lookupKey_setKey_self c.attrs name2 hfn⟩,
    fun event args => rfl, ?_⟩
  intro event args
  have hme : name ≠ onStr ++ event := by
    intro h
    rw [h, hasOnPrefix_onStr_append] at hname
    cases hname
  show lookupKey (setKey c.attrs name hfn) (onStr ++ event)
      = lookupKey c.attrs (onStr ++ event)
  exact lookupKey_setKey_ne c.attrs name (onStr ++ event) hfn hme

/-- C10 witness: registering under the name `handler` (no `on_` prefix)
succeeds, binds under that name, and leaves every dispatch lookup
unchanged. -/
theorem event_registration_no_name_validation_witness :
    hasOnPrefix plainNameStr = false
    ∧ ((∀ name2 : String,
          eventRegister regClient name2 true 5
            = .ok ⟨regClient.listeners, setKey regClient.attrs name2 5⟩
          ∧ lookupKey (setKey regClient.attrs name2 5) name2 = some 5)
      ∧ (∀ (event : String) (args : List Nat),
          (dispatch regClient event args).scheduled
            = lookupKey regClient.attrs (onStr ++ event))
      ∧ (∀ (event : String) (args : List Nat),
          (dispatch (⟨regClient.listeners, setKey regClient.attrs plainNameStr 5⟩ :
              DispatchClient Nat String Nat) event args).scheduled
            = (dispatch regClient event args).scheduled)) :=
  ⟨rfl, event_registration_no_name_validation regClient plainNameStr rfl 5⟩

/-! ### Claim theorems: ChunkRequest. -/

lemma add_members_fst (c : ChunkRequest) (gt : GuildTable) (ms : List Member) :
    (c.add_members gt ms).1 = { c with buffer := c.buffer ++ ms } := by
  rcases hr : resolveGuild gt c.guild_id with _ | g <;>
    by_cases hc : c.cache <;>
      simp [ChunkRequest.add_members, hc, hr]

lemma runChunkOps_buffer_mono (m : Member) (ops : List ChunkOp) :
    ∀ st : ChunkRequest × GuildTable, m ∈ st.1.buffer →
      m ∈ (runChunkOps st ops).1.buffer := by
  induction ops with
  | nil =>
    intro st h
    exact h
  | cons op rest ih =>
    intro st h
    obtain ⟨c, gt⟩ := st
    cases op with
    | addMembers ms =>
      apply ih
      rw [add_members_fst]
      exact List.mem_append_left ms h
    | register =>
      exact ih (c.get_future, gt) h

/-- C5: after any interleaving of chunk-frame arrivals and caller
registrations, signaling completion resolves every still-pending waiter
with the same accumulated buffer — the identical list for all of them, the
buffer itself being left unchanged by `done` — and any member that was in
the buffer before the interleaving (in particular one added before a later
caller registered) is still in the buffer every waiter receives. -/
theorem chunk_request_shared_buffer (c : ChunkRequest) (gt : GuildTable)
    (ops : List ChunkOp) (m : Member) (hm : m ∈ c.buffer) :
    (∀ i : Nat, (runChunkOps (c, gt) ops).1.waiters[i]? = some none →
        ((runChunkOps (c, gt) ops).1.done).waiters[i]?
          = some (some ((runChunkOps (c, gt) ops).1.buffer)))
    ∧ m ∈ (runChunkOps (c, gt) ops).1.buffer
    ∧ ((runChunkOps (c, gt) ops).1.done).buffer = (runChunkOps (c, gt) ops).1.buffer := by
  refine ⟨?_, runChunkOps_buffer_mono m ops (c, gt) hm, rfl⟩
  intro i hi
  simp [ChunkRequest.done, List.getElem?_map, hi]

/-- C5 witness: a buffer seeded before two registrations with a frame in
between; both pending waiters receive the identical final buffer,
containing the member added before either registered. -/
theorem chunk_request_shared_buffer_witness :
    memA ∈ chunkReqFix.buffer
    ∧ ((∀ i : Nat, (runChunkOps (chunkReqFix, []) chunkOpsFix).1.waiters[i]? = some none →
        ((runChunkOps (chunkReqFix, []) chunkOpsFix).1.done).waiters[i]?
          = some (some ((runChunkOps (chunkReqFix, []) chunkOpsFix).1.buffer)))
      ∧ memA ∈ (runChunkOps (chunkReqFix, []) chunkOpsFix).1.buffer
      ∧ ((runChunkOps (chunkReqFix, []) chunkOpsFix).1.done).buffer
          = (runChunkOps (chunkReqFix, []) chunkOpsFix).1.buffer) :=
  ⟨by simp [chunkReqFix],
    chunk_request_shared_buffer chunkReqFix [] chunkOpsFix memA (by simp [chunkReqFix])⟩

end QQClient
